import Mathlib

/-
  Shallow embedding of the bridge seismic damage-evaluation core:
    src/model/damage_evaluator.py   (DamageState, DamageEvaluator)
    src/controller/bridge_evaluator.py (BridgeEvaluator.run_analysis, _convert_fragility_config)
    src/model/analysis_runner.py    (AnalysisRunner)
  Python floats are modelled as real numbers; Python dicts are modelled as
  functions into Option (assignment = pointwise update); exceptions are
  modelled with Except.
-/

namespace BridgeEval

open scoped BigOperators

/-- damage_evaluator.py: `class DamageState(Enum)` with five ordered members. -/
inductive DamageState where
  | NO_DAMAGE
  | SLIGHT
  | MODERATE
  | EXTENSIVE
  | COMPLETE
deriving DecidableEq, Repr

/-- The integer backing of the enum (`state.value` in Python). -/
def DamageState.value : DamageState → ℕ
  | .NO_DAMAGE => 0
  | .SLIGHT => 1
  | .MODERATE => 2
  | .EXTENSIVE => 3
  | .COMPLETE => 4

/-- Python `list(DamageState)`: members in declaration (value) order. -/
def statesList : List DamageState :=
  [.NO_DAMAGE, .SLIGHT, .MODERATE, .EXTENSIVE, .COMPLETE]

/-- Python `DamageState(state.value + 1)`.  In `_calculate_damage_probabilities`
this is only evaluated for SLIGHT, MODERATE and EXTENSIVE (the branch guards
exclude NO_DAMAGE and COMPLETE); the COMPLETE arm here is unreachable in use. -/
def nextState : DamageState → DamageState
  | .NO_DAMAGE => .SLIGHT
  | .SLIGHT => .MODERATE
  | .MODERATE => .EXTENSIVE
  | .EXTENSIVE => .COMPLETE
  | .COMPLETE => .COMPLETE

/-- One fragility-curve parameter record: the Python value
`{"median": m, "beta": b}`. -/
structure Curve where
  median : ℝ
  beta : ℝ

/-- Inner fragility dict of `DamageEvaluator`: damage state → curve params. -/
def StateCurves : Type := DamageState → Option Curve

/-- `self.fragility_params`: component-type name → state-curve dict. -/
def FragilityParams : Type := String → Option StateCurves

/-- Pointwise update modelling Python dict assignment `d[k] = v`. -/
def dUpdate {β : Type} (d : DamageState → β) (k : DamageState) (v : β) :
    DamageState → β :=
  fun s => if s = k then v else d s

/-- `self.default_fragility["pier_drift"]` from `DamageEvaluator.__init__`. -/
noncomputable def pierDriftCurves : StateCurves
  | .SLIGHT => some ⟨0.005, 0.6⟩
  | .MODERATE => some ⟨0.01, 0.6⟩
  | .EXTENSIVE => some ⟨0.025, 0.6⟩
  | .COMPLETE => some ⟨0.05, 0.6⟩
  | .NO_DAMAGE => none

/-- `self.default_fragility["deck_disp"]` from `DamageEvaluator.__init__`. -/
noncomputable def deckDispCurves : StateCurves
  | .SLIGHT => some ⟨0.02, 0.6⟩
  | .MODERATE => some ⟨0.05, 0.6⟩
  | .EXTENSIVE => some ⟨0.1, 0.6⟩
  | .COMPLETE => some ⟨0.3, 0.6⟩
  | .NO_DAMAGE => none

/-- `self.default_fragility` of `DamageEvaluator.__init__`. -/
noncomputable def default_fragility : FragilityParams := fun ct =>
  if ct = "pier_drift" then some pierDriftCurves
  else if ct = "deck_disp" then some deckDispCurves
  else none

/-- The error function, `np.math.erf`, as the Gauss error integral. -/
noncomputable def erf (x : ℝ) : ℝ :=
  2 / Real.sqrt Real.pi * ∫ t in (0:ℝ)..x, Real.exp (-t ^ 2)

/-- `DamageEvaluator._standard_normal_cdf`. -/
noncomputable def stdNormalCdf (x : ℝ) : ℝ :=
  0.5 * (1 + erf (x / Real.sqrt 2))

/-- The loop of `DamageEvaluator._evaluate_damage_state`, over the remaining
iteration list (`for state in reversed(list(DamageState))`; the function
falls through to NO_DAMAGE when the list is exhausted). -/
noncomputable def evalStateLoop (sc : StateCurves) (demand : ℝ) :
    List DamageState → DamageState
  | [] => .NO_DAMAGE
  | s :: rest =>
    if s = .NO_DAMAGE then .NO_DAMAGE
    else
      match sc s with
      | some c => if c.median ≤ demand then s else evalStateLoop sc demand rest
      | none => evalStateLoop sc demand rest

/-- `DamageEvaluator._evaluate_damage_state`.  The dict lookup
`self.fragility_params[component_type]` raises KeyError for an unknown
component type. -/
noncomputable def evaluateDamageState (params : FragilityParams) (ct : String)
    (demand : ℝ) : Except String DamageState :=
  match params ct with
  | none => .error "KeyError: unknown component type"
  | some sc => .ok (evalStateLoop sc demand statesList.reverse)

/-- First loop of `DamageEvaluator._calculate_damage_probabilities`: builds the
`probabilities` dict of exceedance probabilities (only non-NO_DAMAGE states
with a curve receive an entry). -/
noncomputable def buildExceedDict (sc : StateCurves) (demand : ℝ) :
    DamageState → Option ℝ :=
  statesList.foldl
    (fun acc s =>
      if s = .NO_DAMAGE then acc
      else
        match sc s with
        | some c =>
          dUpdate acc s
            (some
              (if 0 < demand then
                stdNormalCdf (Real.log (demand / c.median) / c.beta)
              else 0))
        | none => acc)
    (fun _ => none)

/-- Second loop of `_calculate_damage_probabilities`: the `conditional_probs`
dict.  Every one of the five states is assigned, so the seed value is never
observable. -/
noncomputable def calcProbsCore (sc : StateCurves) (demand : ℝ) :
    DamageState → ℝ :=
  let probabilities := buildExceedDict sc demand
  statesList.foldl
    (fun acc s =>
      if s = .NO_DAMAGE then
        dUpdate acc s (1 - (probabilities .SLIGHT).getD 0)
      else if s = .COMPLETE then
        dUpdate acc s ((probabilities s).getD 0)
      else
        dUpdate acc s
          ((probabilities s).getD 0 - (probabilities (nextState s)).getD 0))
    (fun _ => 0)

/-- `DamageEvaluator._calculate_damage_probabilities` (the leading dict lookup
raises KeyError for an unknown component type). -/
noncomputable def calcDamageProbabilities (params : FragilityParams)
    (ct : String) (demand : ℝ) : Except String (DamageState → ℝ) :=
  match params ct with
  | none => .error "KeyError: unknown component type"
  | some sc => .ok (calcProbsCore sc demand)

/-! ### Static-result extraction (`evaluate_damage_from_results`, static branch)

The static raw entry is an untyped Python value; subscripting it can raise
KeyError (missing dict key), TypeError (not subscriptable) or IndexError
(vector too short), all of which the static branch catches. -/

/-- An untyped Python value as produced for the static raw result. -/
inductive PyVal where
  | num (x : ℝ)
  | vec (xs : List ℝ)
  | dict (entries : List (String × PyVal))
  | pynone

/-- Python `v[k]` for a string key. -/
def pyGet (v : PyVal) (k : String) : Except String PyVal :=
  match v with
  | .dict entries =>
    match entries.find? (fun p => p.1 = k) with
    | some p => .ok p.2
    | none => .error "KeyError"
  | _ => .error "TypeError"

/-- Python `v[i]` for an integer index on a displacement vector. -/
def pyIndex (v : PyVal) (i : ℕ) : Except String ℝ :=
  match v with
  | .vec xs =>
    match xs[i]? with
    | some x => .ok x
    | none => .error "IndexError"
  | _ => .error "TypeError"

/-- The subscript chain
`analysis_results["static"]["displacements"]["node5"][1]` applied to the
already-fetched static entry. -/
def staticReadNode5 (staticRaw : PyVal) : Except String ℝ := do
  let d ← pyGet staticRaw "displacements"
  let n5 ← pyGet d "node5"
  pyIndex n5 1

/-- The `damage_result["static"]` record. -/
structure StaticAssessment where
  deck_displacement : ℝ
  damage_state : DamageState
  error : Option String

/-- Static branch of `DamageEvaluator.evaluate_damage_from_results`
(lines 55-68): on KeyError / IndexError / TypeError the fallback record with
zero displacement, NO_DAMAGE and the error string is produced. -/
noncomputable def evalStatic (params : FragilityParams) (staticRaw : PyVal) :
    StaticAssessment :=
  match
    (do
      let d ← staticReadNode5 staticRaw
      let st ← evaluateDamageState params "deck_disp" |d|
      pure (d, st) : Except String (ℝ × DamageState))
  with
  | .ok (d, st) => ⟨d, st, none⟩
  | .error e => ⟨0, .NO_DAMAGE, some e⟩

/-! ### Time-history extraction (`evaluate_damage_from_results`, th branch) -/

/-- `arr.shape[1]` of a (rectangular) matrix stored as a row list. -/
def numCols (m : List (List ℝ)) : ℕ :=
  match m with
  | [] => 0
  | r :: _ => r.length

/-- A row list is rectangular of width `w` (numpy arrays always are). -/
def IsRect (m : List (List ℝ)) (w : ℕ) : Prop :=
  ∀ r ∈ m, r.length = w

/-- The zero-padding step (lines 95-96): `np.zeros((n, 16))` overwritten on
the first `min 16 shape[1]` columns by the original data. -/
def padTo16 (m : List (List ℝ)) : List (List ℝ) :=
  let w := min 16 (numCols m)
  m.map (fun r => r.take w ++ List.replicate (16 - w) 0)

/-- Column extraction `arr[:, j]`; numpy raises IndexError when some row is
too short (for a rectangular array: when `j >= shape[1]`). -/
def getCol (m : List (List ℝ)) (j : ℕ) : Except String (List ℝ) :=
  if m.all (fun r => decide (j < r.length)) then
    .ok (m.map (fun r => r.getD j 0))
  else .error "IndexError"

/-- Column slice `arr[:, a:b]`; numpy slicing clamps and never raises. -/
def sliceCols (m : List (List ℝ)) (a b : ℕ) : List (List ℝ) :=
  m.map (fun r => (r.drop a).take (b - a))

/-- `np.max(np.abs(xs))` for a nonempty vector of reals; since all entries are
taken in absolute value the zero seed does not change the maximum. -/
def listAbsMax (xs : List ℝ) : ℝ :=
  xs.foldl (fun a x => max a |x|) 0

/-- Column `j` of `np.max(np.abs(m), axis=0)` for a nonempty matrix. -/
def colAbsMax (m : List (List ℝ)) (j : ℕ) : ℝ :=
  m.foldl (fun a r => max a |r.getD j 0|) 0

/-- The `damage_result["time_history"]` record.  The probability dicts are
keyed by the five damage states. -/
structure THAssessment where
  max_pier_drift : ℝ
  max_deck_displacement : List ℝ
  pier_damage_state : DamageState
  deck_damage_state : DamageState
  overall_damage_state : DamageState
  pier_damage_probabilities : DamageState → ℝ
  deck_damage_probabilities : DamageState → ℝ
  error : Option String

/-- The all-zero fallback record (built both for `len(...) <= 1` and in the
`except Exception` handler); `{state.name: 0.0 for state in DamageState}`. -/
def zeroTH (msg : String) : THAssessment :=
  ⟨0, [0, 0, 0], .NO_DAMAGE, .NO_DAMAGE, .NO_DAMAGE, fun _ => 0, fun _ => 0,
    some msg⟩

/-- Body of the time-history branch after the row-count guard (lines 89-131).
Note the index slip on line 101 of the source: the comment derives column 7
for the node-3 (pier-top) x displacement, but the code reads column 4. -/
noncomputable def evalTHBody (params : FragilityParams)
    (disp : List (List ℝ)) (pier_height : ℝ) : Except String THAssessment := do
  let dispArr := if numCols disp < 16 then padTo16 disp else disp
  let node3_disp_x ← getCol dispArr 4
  let deck_disp := sliceCols dispArr 13 16
  let max_deck_disp :=
    if 0 < deck_disp.length then
      [colAbsMax deck_disp 0, colAbsMax deck_disp 1, colAbsMax deck_disp 2]
    else [0, 0, 0]
  let max_drift :=
    if 0 < node3_disp_x.length then listAbsMax node3_disp_x / pier_height
    else 0
  let pier_damage_state ← evaluateDamageState params "pier_drift" max_drift
  let deck_y := max_deck_disp.getD 1 0
  let deck_damage_state ← evaluateDamageState params "deck_disp" deck_y
  let overall_damage :=
    if pier_damage_state.value < deck_damage_state.value then deck_damage_state
    else pier_damage_state
  let pier_damage_probs ← calcDamageProbabilities params "pier_drift" max_drift
  let deck_damage_probs ← calcDamageProbabilities params "deck_disp" deck_y
  pure
    ⟨max_drift, max_deck_disp, pier_damage_state, deck_damage_state,
      overall_damage, pier_damage_probs, deck_damage_probs, none⟩

/-- Time-history branch of `evaluate_damage_from_results` (lines 71-146):
at most one row short-circuits to the zero record; any exception in the body
degrades to the zero record carrying the error string. -/
noncomputable def evaluateTimeHistory (params : FragilityParams)
    (disp : List (List ℝ)) (pier_height : ℝ) : THAssessment :=
  if disp.length ≤ 1 then zeroTH "时程分析结果无效或为空"
  else
    match evalTHBody params disp pier_height with
    | .ok a => a
    | .error e => zeroTH e

/-- The raw time-history entry as stored by the analysis runner. -/
structure THRaw where
  displacements : List (List ℝ)

/-- The evaluator input: the aggregated raw results dict, with the two keys
the evaluator inspects. -/
structure AnalysisResultsIn where
  static : Option PyVal
  time_history : Option THRaw

/-- The dict returned by `evaluate_damage_from_results`. -/
structure DamageResult where
  static : Option StaticAssessment
  time_history : Option THAssessment

/-- `DamageEvaluator.evaluate_damage_from_results`.  (When the time-history
matrix has at most one row the Python code returns early, but nothing follows
the branch, so the result is the same as falling through.) -/
noncomputable def evaluate_damage_from_results (params : FragilityParams)
    (analysis : AnalysisResultsIn) (pier_height : ℝ) : DamageResult :=
  { static := analysis.static.map (evalStatic params),
    time_history := analysis.time_history.map
      (fun th => evaluateTimeHistory params th.displacements pier_height) }

/-! ### Configuration and evaluator construction (bridge_evaluator.py) -/

/-- `analysis.ground_motion` configuration. -/
structure GroundMotionCfg where
  file : String
  dt : ℝ
  duration : Option ℝ

/-- The `analysis` section; a `some` field models the presence of the
corresponding dict key. -/
structure AnalysisCfg where
  static_load : Option ℝ
  ground_motion : Option GroundMotionCfg

/-- Raw fragility configuration as it appears in the config document:
component-type name → (damage-state name → parameter record). -/
abbrev FragilityCfg : Type := List (String × List (String × Curve))

/-- The configuration document.  `span`, `height` and `material` are required
by `_initialize_components`; the remaining sections are optional dict keys. -/
structure Config where
  span : ℝ
  height : ℝ
  analysis : Option AnalysisCfg
  num_modes : Option ℕ
  fragility : Option FragilityCfg

/-- `getattr(DamageState, name)` for the upper-cased damage-state name
(AttributeError modelled as `none`). -/
def parseDamageState (s : String) : Option DamageState :=
  if s = "NO_DAMAGE" then some .NO_DAMAGE
  else if s = "SLIGHT" then some .SLIGHT
  else if s = "MODERATE" then some .MODERATE
  else if s = "EXTENSIVE" then some .EXTENSIVE
  else if s = "COMPLETE" then some .COMPLETE
  else none

/-- Python `s.upper()` (character-wise upper-casing). -/
def pyUpper (s : String) : String := ⟨s.data.map Char.toUpper⟩

/-- One inner-loop step of `_convert_fragility_config`: the assignment
`fragility_config[component_type][damage_state] = params`, after
`getattr(DamageState, damage_name.upper())` (which raises AttributeError on
an unknown name). -/
def convStep (acc : StateCurves) (np : String × Curve) :
    Except String StateCurves :=
  match parseDamageState (pyUpper np.1) with
  | some st => pure (dUpdate acc st (some np.2))
  | none => .error ("AttributeError: DamageState has no attribute " ++
      pyUpper np.1)

/-- Inner loop of `_convert_fragility_config`: builds the per-component dict
`fragility_config[component_type]`. -/
def convertLevels (levels : List (String × Curve)) :
    Except String StateCurves :=
  levels.foldlM convStep (fun _ => none)

/-- One outer-loop step of `_convert_fragility_config`: converts one
component type and assigns it into `fragility_config`. -/
def convComponentStep (acc : FragilityParams)
    (ctp : String × List (String × Curve)) : Except String FragilityParams := do
  let sc ← convertLevels ctp.2
  pure (fun ct => if ct = ctp.1 then some sc else acc ct)

/-- `BridgeEvaluator._convert_fragility_config`: `none` when the config has no
`fragility` section, otherwise the converted dict (or the propagated
AttributeError). -/
def convertFragilityConfig (fragility : Option FragilityCfg) :
    Except String (Option FragilityParams) :=
  match fragility with
  | none => .ok none
  | some fc => do
    let m ← fc.foldlM convComponentStep (fun _ => none)
    pure (some m)

/-- The constructed evaluator: the config plus the damage evaluator's
installed fragility parameters. -/
structure Evaluator where
  config : Config
  fragility_params : FragilityParams

/-- `BridgeEvaluator.__init__` / `_initialize_components` for a config dict:
fragility conversion runs during construction, so a conversion failure is
raised to the caller before any phase can run; `DamageEvaluator.__init__`
falls back to the default curves when no fragility params are supplied. -/
noncomputable def mkBridgeEvaluator (cfg : Config) : Except String Evaluator := do
  let fp ← convertFragilityConfig cfg.fragility
  pure { config := cfg, fragility_params := fp.getD default_fragility }

/-! ### Analysis runner (analysis_runner.py) -/

/-- The external OpenSees solver, abstracted over one evaluation run.  Each
field is the outcome of the solver-call sequence of one runner operation. -/
structure Solver where
  /-- `BridgeModel.build_in_opensees` (wipe + model construction). -/
  build : Except String Unit
  /-- `run_static_analysis` up to `ops.nodeDisp(5)`: the node-5
  displacement vector, given the static load magnitude. -/
  static_solve : ℝ → Except String (List ℝ)
  /-- `ops.eigen(num_modes)` (with the preceding setup calls). -/
  eigen : ℕ → Except String (List ℝ)
  /-- Ground-motion record loading (file-existence check + `np.loadtxt`),
  given the file name: raises when missing or unreadable. -/
  gm_load : String → Except String (List ℝ)
  /-- Everything inside the big `try` of `run_time_history_analysis`
  (excitation setup, integration, result-file reading): the displacement and
  element-force matrices, given (file, record dt, analysis dt, total time). -/
  th_solve : String → ℝ → ℝ → ℝ → Except String (List (List ℝ) × List (List ℝ))

/-- `np.zeros((n, w))`. -/
def zeros (n w : ℕ) : List (List ℝ) :=
  List.replicate n (List.replicate w 0)

/-- The `self.results["modal"]` entry (the error path stores no
`eigen_values` key). -/
structure ModalStored where
  periods : List ℝ
  frequencies : List ℝ
  eigen_values : Option (List ℝ)
  error : Option String

/-- The `self.results["time_history"]` entry. -/
structure THStored where
  displacements : List (List ℝ)
  element_forces : List (List ℝ)
  time_points : List ℝ
  error : Option String

/-- `AnalysisRunner.results`: the aggregated raw results, keyed by phase. -/
structure RunnerResults where
  static : Option (List ℝ)
  modal : Option ModalStored
  time_history : Option THStored

/-- `AnalysisRunner.run_static_analysis`: on solver success the node-5 vector
is stored under "static" BEFORE the final `disp_node5[1]` (which can still
raise IndexError); on solver failure nothing is stored and the exception
propagates. -/
def runStaticAnalysis (sv : Solver) (load : ℝ) (st : RunnerResults) :
    RunnerResults × Except String ℝ :=
  match sv.static_solve load with
  | .error e => (st, .error e)
  | .ok disp =>
    let st := { st with static := some disp }
    match disp[1]? with
    | some d => (st, .ok d)
    | none => (st, .error "IndexError")

/-- One entry of the `periods` list of `run_modal_analysis` (the inner
per-mode `try` turns a missing eigenvalue into a 0 period). -/
noncomputable def modalPeriod (evs : List ℝ) (i : ℕ) : ℝ :=
  match evs[i]? with
  | some ev => if 0 < ev then 2 * Real.pi / Real.sqrt ev else 0
  | none => 0

/-- `AnalysisRunner.run_modal_analysis`: a solver failure is caught INSIDE the
runner, which then stores default periods `[0.5, 0.3, 0.1][:num_modes]`
together with the error string under the "modal" key and returns normally. -/
noncomputable def runModalAnalysis (sv : Solver) (num_modes : ℕ)
    (st : RunnerResults) : RunnerResults × List ℝ :=
  match sv.eigen num_modes with
  | .ok evs =>
    let periods := (List.range num_modes).map (modalPeriod evs)
    let entry : ModalStored :=
      ⟨periods, periods.map (fun t => if 0 < t then 1 / t else 0), some evs,
        none⟩
    ({ st with modal := some entry }, periods)
  | .error e =>
    let default_periods := ([0.5, 0.3, 0.1] : List ℝ).take num_modes
    let entry : ModalStored :=
      ⟨default_periods, default_periods.map (fun t => 1 / t), none, some e⟩
    ({ st with modal := some entry }, default_periods)

/-- `AnalysisRunner.run_time_history_analysis`: a ground-motion loading
failure propagates (nothing stored); any failure of the solver-driven body is
caught inside the runner, which stores zero matrices plus the error string
under the "time_history" key; empty result matrices are replaced by zero
matrices of the expected widths. -/
noncomputable def runTimeHistoryAnalysis (sv : Solver) (gm : GroundMotionCfg)
    (analysis_dt : ℝ) (st : RunnerResults) :
    RunnerResults × Except String THStored :=
  match sv.gm_load gm.file with
  | .error e => (st, .error e)
  | .ok acc_data =>
    let total_time := gm.duration.getD ((acc_data.length - 1 : ℕ) * gm.dt)
    match sv.th_solve gm.file gm.dt analysis_dt total_time with
    | .ok (disp_data, force_data) =>
      let disp_data := if disp_data.isEmpty then zeros 1 16 else disp_data
      let force_data := if force_data.isEmpty then zeros 1 13 else force_data
      let entry : THStored :=
        ⟨disp_data, force_data, disp_data.map (fun r => r.getD 0 0), none⟩
      ({ st with time_history := some entry }, .ok entry)
    | .error e =>
      let entry : THStored := ⟨zeros 1 16, zeros 1 13, [0], some e⟩
      ({ st with time_history := some entry }, .ok entry)

/-! ### Orchestrator (`BridgeEvaluator.run_analysis`) -/

/-- Auto-selection of analysis types (lines 90-99): the phase list stays
EMPTY when the config has no `analysis` section — the `"modal"` append also
sits inside that conditional. -/
def autoSelect (cfg : Config) : List String :=
  match cfg.analysis with
  | none => []
  | some a =>
    (if a.static_load.isSome then ["static"] else []) ++
      (if a.ground_motion.isSome then ["time_history"] else []) ++ ["modal"]

/-- The static block of `run_analysis` (lines 106-117): model build, config
access and the runner call, with any exception caught and the runner state
kept as already mutated. -/
def staticPhase (cfg : Config) (sv : Solver) (st : RunnerResults) :
    RunnerResults :=
  match sv.build with
  | .error _ => st
  | .ok _ =>
    match cfg.analysis with
    | none => st
    | some a => (runStaticAnalysis sv (a.static_load.getD 100.0) st).1

/-- The modal block of `run_analysis` (lines 120-131). -/
noncomputable def modalPhase (cfg : Config) (sv : Solver)
    (st : RunnerResults) : RunnerResults :=
  match sv.build with
  | .error _ => st
  | .ok _ => (runModalAnalysis sv (cfg.num_modes.getD 3) st).1

/-- The time-history block of `run_analysis` (lines 134-157): reads
`config["analysis"]["ground_motion"]` (a missing key raises and is caught)
and calls the runner with `analysis_dt = dt / 2`. -/
noncomputable def thPhase (cfg : Config) (sv : Solver) (st : RunnerResults) :
    RunnerResults :=
  match sv.build with
  | .error _ => st
  | .ok _ =>
    match cfg.analysis with
    | none => st
    | some a =>
      match a.ground_motion with
      | none => st
      | some gm => (runTimeHistoryAnalysis sv gm (gm.dt / 2) st).1

/-- Conversion of the aggregated runner results into the evaluator input:
the static entry is the nested dict
`{"displacements": {"node5": disp}}`. -/
def toEvalInput (st : RunnerResults) : AnalysisResultsIn :=
  { static := st.static.map
      (fun d => PyVal.dict [("displacements", PyVal.dict [("node5", PyVal.vec d)])]),
    time_history := st.time_history.map (fun t => ⟨t.displacements⟩) }

/-- The summary block (elapsed wall-clock time is not modelled). -/
structure Summary where
  config : Config

/-- The `self.results` mapping returned by `run_analysis`. -/
structure Results where
  analysis : RunnerResults
  damage : DamageResult
  summary : Summary

/-- `run_analysis` after phase-list resolution: the three phase blocks in
fixed order, each with its own exception barrier, then damage evaluation
(itself guarded), then the summary.  The function is total: no branch
propagates an exception. -/
noncomputable def run_analysisCore (ev : Evaluator) (sv : Solver)
    (types : List String) : Results :=
  let st0 : RunnerResults := ⟨none, none, none⟩
  let st1 := if "static" ∈ types then staticPhase ev.config sv st0 else st0
  let st2 := if "modal" ∈ types then modalPhase ev.config sv st1 else st1
  let st3 := if "time_history" ∈ types then thPhase ev.config sv st2 else st2
  let damage :=
    evaluate_damage_from_results ev.fragility_params (toEvalInput st3)
      ev.config.height
  { analysis := st3, damage := damage, summary := ⟨ev.config⟩ }

/-- `BridgeEvaluator.run_analysis`: an explicit phase list overrides
auto-selection. -/
noncomputable def run_analysis (ev : Evaluator) (sv : Solver)
    (analysis_types : Option (List String)) : Results :=
  run_analysisCore ev sv (analysis_types.getD (autoSelect ev.config))

/-! ### Analytic facts about the error function -/

open MeasureTheory in
lemma gaussIntegrand_integrable :
    MeasureTheory.Integrable (fun t : ℝ => Real.exp (-t ^ 2)) := by
  have h := integrable_exp_neg_mul_sq (b := 1) one_pos
  simpa using h

lemma gaussIntegrand_intervalIntegrable (a b : ℝ) :
    IntervalIntegrable (fun t : ℝ => Real.exp (-t ^ 2))
      MeasureTheory.volume a b :=
  gaussIntegrand_integrable.intervalIntegrable

lemma erf_monotone : Monotone erf := by
  intro x y hxy
  unfold erf
  have hcoef : 0 ≤ 2 / Real.sqrt Real.pi :=
    div_nonneg (by norm_num) (Real.sqrt_nonneg _)
  refine mul_le_mul_of_nonneg_left ?_ hcoef
  have hadd := intervalIntegral.integral_add_adjacent_intervals
    (gaussIntegrand_intervalIntegrable 0 x) (gaussIntegrand_intervalIntegrable x y)
  have hpos : 0 ≤ ∫ t in x..y, Real.exp (-t ^ 2) :=
    intervalIntegral.integral_nonneg hxy (fun u _ => (Real.exp_pos _).le)
  linarith [hadd]

lemma integral_Ioi_gauss :
    ∫ t in Set.Ioi (0:ℝ), Real.exp (-t ^ 2) = Real.sqrt Real.pi / 2 := by
  have h := integral_gaussian_Ioi 1
  simpa using h

lemma gauss_intervalIntegral_le {x : ℝ} (hx : 0 ≤ x) :
    ∫ t in (0:ℝ)..x, Real.exp (-t ^ 2) ≤ Real.sqrt Real.pi / 2 := by
  rw [intervalIntegral.integral_of_le hx, ← integral_Ioi_gauss]
  refine MeasureTheory.setIntegral_mono_set
    gaussIntegrand_integrable.integrableOn
    (Filter.Eventually.of_forall fun t => (Real.exp_pos _).le)
    (Filter.Eventually.of_forall ?_)
  intro t ht
  exact Set.Ioc_subset_Ioi_self ht

lemma erf_le_one (x : ℝ) : erf x ≤ 1 := by
  rcases le_or_lt x 0 with hx | hx
  · have hnn : 0 ≤ ∫ t in x..(0:ℝ), Real.exp (-t ^ 2) :=
      intervalIntegral.integral_nonneg hx (fun u _ => (Real.exp_pos _).le)
    have hsymm := intervalIntegral.integral_symm (f := fun t : ℝ => Real.exp (-t ^ 2))
      (a := x) (b := 0) (μ := MeasureTheory.volume)
    have hle : (∫ t in (0:ℝ)..x, Real.exp (-t ^ 2)) ≤ 0 := by
      rw [hsymm]; linarith
    have hcoef : 0 ≤ 2 / Real.sqrt Real.pi :=
      div_nonneg (by norm_num) (Real.sqrt_nonneg _)
    have : erf x ≤ 0 := mul_nonpos_of_nonneg_of_nonpos hcoef hle
    linarith
  · have h1 := gauss_intervalIntegral_le hx.le
    have hs : 0 < Real.sqrt Real.pi := Real.sqrt_pos.mpr Real.pi_pos
    have hcoef : 0 ≤ 2 / Real.sqrt Real.pi := le_of_lt (by positivity)
    calc erf x ≤ 2 / Real.sqrt Real.pi * (Real.sqrt Real.pi / 2) :=
          mul_le_mul_of_nonneg_left h1 hcoef
      _ = 1 := by field_simp
lemma erf_neg_eq (x : ℝ) : erf (-x) = -erf x := by
  unfold erf
  have h := intervalIntegral.integral_comp_neg (a := (0:ℝ)) (b := -x)
    (f := fun t : ℝ => Real.exp (-t ^ 2))
  have h1 : (∫ t in (0:ℝ)..(-x), Real.exp (-t ^ 2)) =
      ∫ t in x..(0:ℝ), Real.exp (-t ^ 2) := by
    simpa [neg_sq] using h
  rw [h1, intervalIntegral.integral_symm]
  ring

lemma neg_one_le_erf (x : ℝ) : -1 ≤ erf x := by
  have h := erf_le_one (-x)
  rw [erf_neg_eq] at h
  linarith

lemma stdNormalCdf_nonneg (x : ℝ) : 0 ≤ stdNormalCdf x := by
  have h := neg_one_le_erf (x / Real.sqrt 2)
  unfold stdNormalCdf
  nlinarith

lemma stdNormalCdf_le_one (x : ℝ) : stdNormalCdf x ≤ 1 := by
  have h := erf_le_one (x / Real.sqrt 2)
  unfold stdNormalCdf
  nlinarith

lemma stdNormalCdf_monotone : Monotone stdNormalCdf := by
  intro x y hxy
  unfold stdNormalCdf
  have hdiv : x / Real.sqrt 2 ≤ y / Real.sqrt 2 := by gcongr
  have h := erf_monotone hdiv
  linarith

/-! ### Evaluation lemmas for the probability dicts -/

/-- The exceedance-probability formula exactly as the specification words it
(natural log, dispersion beta, `Φ(z) = 0.5·(1 + erf(z/√2))`). -/
noncomputable def specPexcFormula (demand : ℝ) (c : Curve) : ℝ :=
  if 0 < demand then
    0.5 * (1 + erf (Real.log (demand / c.median) / c.beta / Real.sqrt 2))
  else 0

/-- The specification's `P_exceed`, with states lacking a curve contributing
probability 0 (matching the dict default `.get(name, 0.0)`). -/
noncomputable def specPExceed (sc : StateCurves) (demand : ℝ)
    (s : DamageState) : ℝ :=
  ((sc s).map (specPexcFormula demand)).getD 0

lemma stdNormalCdf_eq_formula (demand : ℝ) (c : Curve) :
    (if 0 < demand then
        stdNormalCdf (Real.log (demand / c.median) / c.beta)
      else 0) = specPexcFormula demand c := by
  unfold stdNormalCdf specPexcFormula
  rfl

lemma buildExceedDict_eq (sc : StateCurves) (demand : ℝ) (s : DamageState) :
    buildExceedDict sc demand s =
      if s = .NO_DAMAGE then none
      else (sc s).map (specPexcFormula demand) := by
  have hb : ∀ c : Curve,
      (if 0 < demand then
          stdNormalCdf (Real.log (demand / c.median) / c.beta)
        else 0) = specPexcFormula demand c := stdNormalCdf_eq_formula demand
  rcases h1 : sc .SLIGHT with _ | c1 <;> rcases h2 : sc .MODERATE with _ | c2 <;>
    rcases h3 : sc .EXTENSIVE with _ | c3 <;>
    rcases h4 : sc .COMPLETE with _ | c4 <;> cases s <;>
    simp [buildExceedDict, statesList, dUpdate, h1, h2, h3, h4, hb]

lemma calcProbsCore_eq (sc : StateCurves) (demand : ℝ) :
    (calcProbsCore sc demand .NO_DAMAGE =
        1 - specPExceed sc demand .SLIGHT) ∧
      (calcProbsCore sc demand .SLIGHT =
        specPExceed sc demand .SLIGHT - specPExceed sc demand .MODERATE) ∧
      (calcProbsCore sc demand .MODERATE =
        specPExceed sc demand .MODERATE - specPExceed sc demand .EXTENSIVE) ∧
      (calcProbsCore sc demand .EXTENSIVE =
        specPExceed sc demand .EXTENSIVE - specPExceed sc demand .COMPLETE) ∧
      (calcProbsCore sc demand .COMPLETE =
        specPExceed sc demand .COMPLETE) := by
  have hb := buildExceedDict_eq sc demand
  refine ⟨?_, ?_, ?_, ?_, ?_⟩ <;>
    simp [calcProbsCore, statesList, dUpdate, nextState, hb, specPExceed]

/-- C1: for every component type (state-curve table) in the fragility model
and every demand, the exceedance dict carries, for each non-NoDamage state
with a curve, `P_exceed = 0.5·(1 + erf((ln(demand/median)/beta)/√2))` when
demand > 0 and 0 when demand ≤ 0, and the returned distribution is
`P(NoDamage) = 1 − P_exceed(Slight)`,
`P(state) = P_exceed(state) − P_exceed(next)` for the states strictly between
Slight and Complete, and `P(Complete) = P_exceed(Complete)`. -/
theorem thm_C1_probability_distribution (sc : StateCurves) (demand : ℝ) :
    (buildExceedDict sc demand .SLIGHT =
        (sc .SLIGHT).map (specPexcFormula demand)) ∧
      (buildExceedDict sc demand .MODERATE =
        (sc .MODERATE).map (specPexcFormula demand)) ∧
      (buildExceedDict sc demand .EXTENSIVE =
        (sc .EXTENSIVE).map (specPexcFormula demand)) ∧
      (buildExceedDict sc demand .COMPLETE =
        (sc .COMPLETE).map (specPexcFormula demand)) ∧
      (calcProbsCore sc demand .NO_DAMAGE =
        1 - specPExceed sc demand .SLIGHT) ∧
      (calcProbsCore sc demand .MODERATE =
        specPExceed sc demand .MODERATE - specPExceed sc demand .EXTENSIVE) ∧
      (calcProbsCore sc demand .EXTENSIVE =
        specPExceed sc demand .EXTENSIVE - specPExceed sc demand .COMPLETE) ∧
      (calcProbsCore sc demand .COMPLETE =
        specPExceed sc demand .COMPLETE) := by
  have hb := buildExceedDict_eq sc demand
  have hc := calcProbsCore_eq sc demand
  refine ⟨?_, ?_, ?_, ?_, hc.1, hc.2.2.1, hc.2.2.2.1, hc.2.2.2.2⟩ <;>
    simp [hb]

/-! ### C3: the discrete distribution is a probability distribution -/

lemma pexcFormula_nonneg (demand : ℝ) (c : Curve) :
    0 ≤ specPexcFormula demand c := by
  rw [← stdNormalCdf_eq_formula]
  split
  · exact stdNormalCdf_nonneg _
  · exact le_refl 0

lemma pexcFormula_le_one (demand : ℝ) (c : Curve) :
    specPexcFormula demand c ≤ 1 := by
  rw [← stdNormalCdf_eq_formula]
  split
  · exact stdNormalCdf_le_one _
  · norm_num

lemma pexc_le_pexc (demand m1 m2 β : ℝ) (hd : 0 < demand) (hm1 : 0 < m1)
    (h12 : m1 ≤ m2) (hβ : 0 < β) :
    specPexcFormula demand ⟨m2, β⟩ ≤ specPexcFormula demand ⟨m1, β⟩ := by
  rw [← stdNormalCdf_eq_formula, ← stdNormalCdf_eq_formula]
  simp only [if_pos hd]
  apply stdNormalCdf_monotone
  have hm2 : 0 < m2 := lt_of_lt_of_le hm1 h12
  have hdm2 : (0:ℝ) < demand / m2 := by positivity
  have hdd : demand / m2 ≤ demand / m1 := by gcongr
  have hlog : Real.log (demand / m2) ≤ Real.log (demand / m1) :=
    Real.log_le_log hdm2 hdd
  gcongr

lemma calcProbs_bounds (sc : StateCurves) (m1 m2 m3 m4 β demand : ℝ)
    (hS : sc .SLIGHT = some ⟨m1, β⟩) (hM : sc .MODERATE = some ⟨m2, β⟩)
    (hE : sc .EXTENSIVE = some ⟨m3, β⟩) (hC : sc .COMPLETE = some ⟨m4, β⟩)
    (hm1 : 0 < m1) (h12 : m1 ≤ m2) (h23 : m2 ≤ m3) (h34 : m3 ≤ m4)
    (hβ : 0 < β) (hd : 0 ≤ demand) :
    ∀ s, 0 ≤ calcProbsCore sc demand s ∧ calcProbsCore sc demand s ≤ 1 := by
  obtain ⟨e0, e1, e2, e3, e4⟩ := calcProbsCore_eq sc demand
  have hpS : specPExceed sc demand .SLIGHT = specPexcFormula demand ⟨m1, β⟩ := by
    simp [specPExceed, hS]
  have hpM : specPExceed sc demand .MODERATE = specPexcFormula demand ⟨m2, β⟩ := by
    simp [specPExceed, hM]
  have hpE : specPExceed sc demand .EXTENSIVE = specPexcFormula demand ⟨m3, β⟩ := by
    simp [specPExceed, hE]
  have hpC : specPExceed sc demand .COMPLETE = specPexcFormula demand ⟨m4, β⟩ := by
    simp [specPExceed, hC]
  have n1 := pexcFormula_nonneg demand ⟨m1, β⟩
  have n2 := pexcFormula_nonneg demand ⟨m2, β⟩
  have n3 := pexcFormula_nonneg demand ⟨m3, β⟩
  have n4 := pexcFormula_nonneg demand ⟨m4, β⟩
  have u1 := pexcFormula_le_one demand ⟨m1, β⟩
  have u2 := pexcFormula_le_one demand ⟨m2, β⟩
  have u3 := pexcFormula_le_one demand ⟨m3, β⟩
  have u4 := pexcFormula_le_one demand ⟨m4, β⟩
  rcases lt_or_le 0 demand with hd0 | hd0
  · have c21 := pexc_le_pexc demand m1 m2 β hd0 hm1 h12 hβ
    have c32 := pexc_le_pexc demand m2 m3 β hd0 (lt_of_lt_of_le hm1 h12) h23 hβ
    have c43 := pexc_le_pexc demand m3 m4 β hd0
      (lt_of_lt_of_le hm1 (le_trans h12 h23)) h34 hβ
    intro s
    cases s <;> constructor <;>
      simp only [e0, e1, e2, e3, e4, hpS, hpM, hpE, hpC] <;> linarith
  · have hz : ∀ c : Curve, specPexcFormula demand c = 0 := by
      intro c
      unfold specPexcFormula
      rw [if_neg (not_lt.mpr hd0)]
    intro s
    cases s <;> constructor <;>
      simp only [e0, e1, e2, e3, e4, hpS, hpM, hpE, hpC, hz] <;> norm_num

/-- C3: for any demand ≥ 0 and either component type of the (default)
fragility model, the discrete distribution computed by the probability
operation has every value in [0,1] and its five values sum to 1, with no
clamping anywhere in the computation. -/
theorem thm_C3_distribution_valid (ct : String) (sc : StateCurves)
    (demand : ℝ) (hct : default_fragility ct = some sc) (hd : 0 ≤ demand) :
    calcDamageProbabilities default_fragility ct demand =
        .ok (calcProbsCore sc demand) ∧
      (∀ s, 0 ≤ calcProbsCore sc demand s ∧ calcProbsCore sc demand s ≤ 1) ∧
      calcProbsCore sc demand .NO_DAMAGE + calcProbsCore sc demand .SLIGHT +
          calcProbsCore sc demand .MODERATE +
          calcProbsCore sc demand .EXTENSIVE +
          calcProbsCore sc demand .COMPLETE = 1 := by
  refine ⟨by simp [calcDamageProbabilities, hct], ?_, ?_⟩
  · by_cases h1 : ct = "pier_drift"
    · have hsc : sc = pierDriftCurves := by
        simp [default_fragility, h1] at hct
        exact hct.symm
      subst hsc
      exact calcProbs_bounds _ 0.005 0.01 0.025 0.05 0.6 demand rfl rfl rfl rfl
        (by norm_num) (by norm_num) (by norm_num) (by norm_num) (by norm_num) hd
    · by_cases h2 : ct = "deck_disp"
      · have hsc : sc = deckDispCurves := by
          simp [default_fragility, h1, h2] at hct
          exact hct.symm
        subst hsc
        exact calcProbs_bounds _ 0.02 0.05 0.1 0.3 0.6 demand rfl rfl rfl rfl
          (by norm_num) (by norm_num) (by norm_num) (by norm_num) (by norm_num)
          hd
      · simp [default_fragility, h1, h2] at hct
  · obtain ⟨e0, e1, e2, e3, e4⟩ := calcProbsCore_eq sc demand
    rw [e0, e1, e2, e3, e4]
    ring

/-- Witness for C3 at component type pier_drift and demand 0. -/
theorem thm_C3_witness :
    default_fragility "pier_drift" = some pierDriftCurves ∧
      (0:ℝ) ≤ 0 ∧
      calcProbsCore pierDriftCurves 0 .NO_DAMAGE +
          calcProbsCore pierDriftCurves 0 .SLIGHT +
          calcProbsCore pierDriftCurves 0 .MODERATE +
          calcProbsCore pierDriftCurves 0 .EXTENSIVE +
          calcProbsCore pierDriftCurves 0 .COMPLETE = 1 := by
  have h : default_fragility "pier_drift" = some pierDriftCurves := by
    simp [default_fragility]
  exact ⟨h, le_refl 0,
    (thm_C3_distribution_valid "pier_drift" pierDriftCurves 0 h
      (le_refl 0)).2.2⟩

/-! ### C2: threshold classification returns the most severe reached state -/

/-- Whether the loop of `_evaluate_damage_state` accepts state `s`: a curve
exists and its median is ≤ the demand. -/
noncomputable def qualB (sc : StateCurves) (demand : ℝ) (s : DamageState) :
    Bool :=
  match sc s with
  | some c => decide (c.median ≤ demand)
  | none => false

/-- The specification-side acceptance predicate for C2. -/
def Qualifies (sc : StateCurves) (demand : ℝ) (s : DamageState) : Prop :=
  s ≠ .NO_DAMAGE ∧ ∃ c, sc s = some c ∧ c.median ≤ demand

lemma qualifies_iff (sc : StateCurves) (demand : ℝ) (s : DamageState) :
    Qualifies sc demand s ↔ (s ≠ .NO_DAMAGE ∧ qualB sc demand s = true) := by
  unfold Qualifies qualB
  rcases h : sc s with _ | c <;> simp [h]

lemma evalStateLoop_cons (sc : StateCurves) (demand : ℝ) (s : DamageState)
    (rest : List DamageState) (h : s ≠ .NO_DAMAGE) :
    evalStateLoop sc demand (s :: rest) =
      if qualB sc demand s then s else evalStateLoop sc demand rest := by
  rcases hsc : sc s with _ | c <;> simp [evalStateLoop, h, qualB, hsc]

lemma evalStateLoop_concrete (sc : StateCurves) (demand : ℝ) :
    evalStateLoop sc demand statesList.reverse =
      (if qualB sc demand .COMPLETE then .COMPLETE
       else if qualB sc demand .EXTENSIVE then .EXTENSIVE
       else if qualB sc demand .MODERATE then .MODERATE
       else if qualB sc demand .SLIGHT then .SLIGHT
       else .NO_DAMAGE) := by
  have h : statesList.reverse =
      [.COMPLETE, .EXTENSIVE, .MODERATE, .SLIGHT, .NO_DAMAGE] := by
    simp [statesList]
  rw [h, evalStateLoop_cons sc demand _ _ (by simp),
    evalStateLoop_cons sc demand _ _ (by simp),
    evalStateLoop_cons sc demand _ _ (by simp),
    evalStateLoop_cons sc demand _ _ (by simp)]
  simp [evalStateLoop]

lemma loop_most_severe (sc : StateCurves) (demand : ℝ) :
    (∀ s, Qualifies sc demand s →
        s.value ≤ (evalStateLoop sc demand statesList.reverse).value) ∧
      (evalStateLoop sc demand statesList.reverse ≠ .NO_DAMAGE →
        Qualifies sc demand (evalStateLoop sc demand statesList.reverse)) ∧
      (evalStateLoop sc demand statesList.reverse = .NO_DAMAGE →
        ∀ s, ¬ Qualifies sc demand s) := by
  rw [evalStateLoop_concrete]
  simp only [qualifies_iff]
  cases hC : qualB sc demand .COMPLETE <;>
    cases hE : qualB sc demand .EXTENSIVE <;>
    cases hM : qualB sc demand .MODERATE <;>
    cases hS : qualB sc demand .SLIGHT <;>
    refine ⟨?_, ?_, ?_⟩ <;>
    simp_all <;>
    try (intro s hs hq; cases s <;> simp_all [DamageState.value])
  all_goals (intro s; cases s <;> simp_all [DamageState.value])

/-- C2: for every component type present in the fragility model and every
demand, the threshold classification returns the most severe non-NoDamage
state whose curve exists and whose median is ≤ the demand, and NoDamage when
none qualifies; in particular with the default pier-drift curves a demand of
0.012 classifies as MODERATE. -/
theorem thm_C2_threshold_classification (params : FragilityParams)
    (ct : String) (sc : StateCurves) (demand : ℝ) (h : params ct = some sc) :
    (∃ r, evaluateDamageState params ct demand = .ok r ∧
        (∀ s, Qualifies sc demand s → s.value ≤ r.value) ∧
        (r ≠ .NO_DAMAGE → Qualifies sc demand r) ∧
        (r = .NO_DAMAGE → ∀ s, ¬ Qualifies sc demand s)) ∧
      evaluateDamageState default_fragility "pier_drift" (0.012:ℝ) =
        .ok .MODERATE := by
  constructor
  · refine ⟨evalStateLoop sc demand statesList.reverse, ?_, ?_, ?_, ?_⟩
    · simp [evaluateDamageState, h]
    · exact (loop_most_severe sc demand).1
    · exact (loop_most_severe sc demand).2.1
    · exact (loop_most_severe sc demand).2.2
  · have hq1 : qualB pierDriftCurves (0.012:ℝ) .COMPLETE = false := by
      simp only [qualB, pierDriftCurves]
      norm_num
    have hq2 : qualB pierDriftCurves (0.012:ℝ) .EXTENSIVE = false := by
      simp only [qualB, pierDriftCurves]
      norm_num
    have hq3 : qualB pierDriftCurves (0.012:ℝ) .MODERATE = true := by
      simp only [qualB, pierDriftCurves]
      norm_num
    have hlk : default_fragility "pier_drift" = some pierDriftCurves := by
      simp [default_fragility]
    simp [evaluateDamageState, hlk, evalStateLoop_concrete, hq1, hq2, hq3]

/-- Witness for C2 at the default pier-drift curves and demand 0.012. -/
theorem thm_C2_witness :
    default_fragility "pier_drift" = some pierDriftCurves ∧
      ∃ r, evaluateDamageState default_fragility "pier_drift" (0.012:ℝ) =
        .ok r ∧ Qualifies pierDriftCurves (0.012:ℝ) r := by
  have hlk : default_fragility "pier_drift" = some pierDriftCurves := by
    simp [default_fragility]
  obtain ⟨⟨r, hr, _, hq, _⟩, hconc⟩ :=
    thm_C2_threshold_classification default_fragility "pier_drift"
      pierDriftCurves (0.012:ℝ) hlk
  have hrm : r = .MODERATE := by
    rw [hr] at hconc
    exact Except.ok.inj hconc
  refine ⟨hlk, r, hr, hq ?_⟩
  rw [hrm]
  simp

/-! ### C8: at most one time-history row degrades to zero demands -/

/-- C8: for a time-history displacement matrix with at most one row, the
reported demands are zero and the pier, deck and overall damage states all
resolve to NO_DAMAGE (with zero probability dicts and an error marker). -/
theorem thm_C8_empty_time_history (params : FragilityParams)
    (disp : List (List ℝ)) (pier_height : ℝ) (h : disp.length ≤ 1) :
    (evaluateTimeHistory params disp pier_height).max_pier_drift = 0 ∧
      (evaluateTimeHistory params disp pier_height).max_deck_displacement =
        [0, 0, 0] ∧
      (evaluateTimeHistory params disp pier_height).pier_damage_state =
        .NO_DAMAGE ∧
      (evaluateTimeHistory params disp pier_height).deck_damage_state =
        .NO_DAMAGE ∧
      (evaluateTimeHistory params disp pier_height).overall_damage_state =
        .NO_DAMAGE := by
  simp [evaluateTimeHistory, h, zeroTH]

/-- Witness for C8 on the empty matrix. -/
theorem thm_C8_witness :
    ([] : List (List ℝ)).length ≤ 1 ∧
      (evaluateTimeHistory default_fragility [] 1).overall_damage_state =
        .NO_DAMAGE := by
  refine ⟨by simp, ?_⟩
  exact (thm_C8_empty_time_history default_fragility [] 1 (by simp)).2.2.2.2

/-! ### C10: malformed static raw results degrade to an error record -/

/-- C10: whenever the subscript chain on the static raw entry fails (missing
key, too-short vector, or a non-indexable value), the static assessment
records displacement 0.0, state NO_DAMAGE and the error string — it never
propagates. -/
theorem thm_C10_static_malformed (params : FragilityParams) (raw : PyVal)
    (e : String) (h : staticReadNode5 raw = .error e) :
    evalStatic params raw = ⟨0, .NO_DAMAGE, some e⟩ := by
  simp [evalStatic, h, Bind.bind, Except.bind]

/-- Witness for C10 on a static entry with no displacements key. -/
theorem thm_C10_witness :
    staticReadNode5 (PyVal.dict []) = .error "KeyError" ∧
      evalStatic default_fragility (PyVal.dict []) =
        ⟨0, .NO_DAMAGE, some "KeyError"⟩ :=
  ⟨rfl, thm_C10_static_malformed default_fragility (PyVal.dict []) "KeyError"
    rfl⟩

/-! ### C6: the pier-drift demand is read from column 4, not column 7 -/

/-- The pier demand as the specification and the source comment describe it:
maximum over rows of the absolute value of COLUMN 7 (node-3 x displacement
under the documented packing), divided by the pier height. -/
noncomputable def specPierDemand (m : List (List ℝ)) (pier_height : ℝ) : ℝ :=
  listAbsMax (m.map (fun r => r.getD 7 0)) / pier_height

/-- A 16-wide row of zeros. -/
noncomputable def zeroRow16 : List ℝ :=
  [0, 0, 0, 0, 0, 0, 0, 0, 0, 0, 0, 0, 0, 0, 0, 0]

/-- A 16-wide row with value `a` in column 4 and `b` in column 7. -/
noncomputable def row16 (a b : ℝ) : List ℝ :=
  [0, 0, 0, 0, a, 0, 0, b, 0, 0, 0, 0, 0, 0, 0, 0]

/-- The C6 failing input: two time rows, second row has column 4 = 2 and
column 7 = 3. -/
noncomputable def dispC6 : List (List ℝ) := [zeroRow16, row16 2 3]

/-- C6 (code divergence, evaluated at the failing input): with pier height 1,
the code computes max_pier_drift = 2 — the column-4 value — while the
documented packing (pier-top node 3, x dof, column 7) yields 3. -/
theorem thm_C6_pier_column_divergence :
    (evaluateTimeHistory default_fragility dispC6 1).max_pier_drift = 2 ∧
      specPierDemand dispC6 1 = 3 ∧ (2:ℝ) ≠ 3 := by
  have hg : getCol dispC6 4 = .ok [0, 2] := by
    norm_num [getCol, dispC6, zeroRow16, row16, List.getD]
  have hsl : sliceCols dispC6 13 16 = [[0, 0, 0], [0, 0, 0]] := by
    norm_num [sliceCols, dispC6, zeroRow16, row16]
  have hdrift : listAbsMax [(0:ℝ), 2] = 2 := by
    norm_num [listAbsMax]
  have hlk : default_fragility "pier_drift" = some pierDriftCurves := by
    simp [default_fragility]
  have hlk2 : default_fragility "deck_disp" = some deckDispCurves := by
    simp [default_fragility]
  have hps : evaluateDamageState default_fragility "pier_drift" 2 =
      .ok .COMPLETE := by
    simp [evaluateDamageState, hlk, evalStateLoop_concrete, qualB,
      pierDriftCurves, decide_eq_true_eq]
    norm_num
  have hds : evaluateDamageState default_fragility "deck_disp" 0 =
      .ok .NO_DAMAGE := by
    simp [evaluateDamageState, hlk2, evalStateLoop_concrete, qualB,
      deckDispCurves, decide_eq_true_eq]
    norm_num
  have hcols : numCols dispC6 = 16 := by
    norm_num [numCols, dispC6, zeroRow16]
  refine ⟨?_, ?_, by norm_num⟩
  · have hlen : ¬ dispC6.length ≤ 1 := by norm_num [dispC6]
    rw [evaluateTimeHistory, if_neg hlen]
    rw [evalTHBody, hcols]
    norm_num [hg, hsl, hdrift, hps, hds, Bind.bind, Except.bind, colAbsMax,
      calcDamageProbabilities, hlk, hlk2, List.getD, Pure.pure, Except.pure,
      DamageState.value]
  · norm_num [specPierDemand, dispC6, zeroRow16, row16, listAbsMax,
      List.getD]

/-! ### C7: short matrices are zero-padded and never raise -/

lemma listAbsMax_zero (xs : List ℝ) (h : ∀ x ∈ xs, x = 0) :
    listAbsMax xs = 0 := by
  induction xs with
  | nil => rfl
  | cons x xs ih =>
    have hx := h x (List.mem_cons_self x xs)
    have hrest : ∀ y ∈ xs, y = 0 := fun y hy => h y (List.mem_cons_of_mem x hy)
    have := ih hrest
    simp only [listAbsMax, List.foldl_cons] at this ⊢
    rw [hx]
    simpa using this

lemma colAbsMax_zero (m : List (List ℝ)) (j : ℕ)
    (h : ∀ r ∈ m, r.getD j 0 = 0) : colAbsMax m j = 0 := by
  induction m with
  | nil => rfl
  | cons r m ih =>
    have hr := h r (List.mem_cons_self r m)
    have hrest : ∀ q ∈ m, q.getD j 0 = 0 :=
      fun q hq => h q (List.mem_cons_of_mem r hq)
    have := ih hrest
    simp only [colAbsMax, List.foldl_cons] at this ⊢
    rw [hr]
    simpa using this

lemma getD_pad_zero (r : List ℝ) (w j : ℕ) (hr : r.length = w)
    (hj : w ≤ j) : (r ++ List.replicate (16 - w) (0:ℝ)).getD j 0 = 0 := by
  rw [List.getD_eq_getElem?_getD,
    List.getElem?_append_right (by rw [hr]; exact hj), List.getElem?_replicate]
  split <;> rfl

lemma slice_entry (x : List ℝ) (j : ℕ) (hj : j < 3) :
    ((x.drop 13).take 3).getD j 0 = x.getD (13 + j) 0 := by
  simp [List.getD_eq_getElem?_getD, List.getElem?_take, hj, List.getElem?_drop]

lemma padTo16_map (disp : List (List ℝ)) (w : ℕ) (hrect : IsRect disp w)
    (hcols : numCols disp = w) (hw16 : w ≤ 16) :
    padTo16 disp = disp.map (fun r => r ++ List.replicate (16 - w) 0) := by
  unfold padTo16
  rw [hcols, Nat.min_eq_right hw16]
  exact List.map_congr_left fun r hr => by rw [← hrect r hr, List.take_length]

lemma padTo16_len16 (disp : List (List ℝ)) (w : ℕ) (hrect : IsRect disp w)
    (hcols : numCols disp = w) (hw16 : w ≤ 16) :
    ∀ r ∈ padTo16 disp, r.length = 16 := by
  rw [padTo16_map disp w hrect hcols hw16]
  intro r hr
  obtain ⟨q, hq, rfl⟩ := List.mem_map.mp hr
  have := hrect q hq
  simp [this]
  omega

/-- C7: a displacement matrix with more than one row but fewer than 16
columns never raises: it is zero-padded on the right to 16 columns before
column indexing, the body completes without an exception (no error marker),
and demands drawn from the missing columns resolve to 0. -/
theorem thm_C7_zero_padding (params : FragilityParams) (disp : List (List ℝ))
    (w : ℕ) (pier_height : ℝ) (hrect : IsRect disp w) (hw : w < 16)
    (hrows : 1 < disp.length) (hp : (params "pier_drift").isSome)
    (hdk : (params "deck_disp").isSome) :
    (∀ r ∈ padTo16 disp, r.length = 16) ∧
      (∃ a, evalTHBody params disp pier_height = .ok a) ∧
      (evaluateTimeHistory params disp pier_height).error = none ∧
      (w ≤ 4 → (evaluateTimeHistory params disp pier_height).max_pier_drift
        = 0) ∧
      (w ≤ 13 →
        (evaluateTimeHistory params disp pier_height).max_deck_displacement
          = [0, 0, 0]) := by
  obtain ⟨scP, hP⟩ := Option.isSome_iff_exists.mp hp
  obtain ⟨scD, hD⟩ := Option.isSome_iff_exists.mp hdk
  have hne : disp ≠ [] := by
    intro h
    rw [h] at hrows
    simp at hrows
  have hcols : numCols disp = w := by
    cases disp with
    | nil => exact absurd rfl hne
    | cons r rest => exact hrect r (List.mem_cons_self r rest)
  have hw16 : w ≤ 16 := hw.le
  have hpadlen := padTo16_len16 disp w hrect hcols hw16
  have hpadmap := padTo16_map disp w hrect hcols hw16
  have hlenpad : (padTo16 disp).length = disp.length := by
    simp [padTo16]
  have hpos : 0 < disp.length := by omega
  have hgc : getCol (padTo16 disp) 4 =
      .ok ((padTo16 disp).map (fun r => r.getD 4 0)) := by
    unfold getCol
    rw [if_pos]
    rw [List.all_eq_true]
    intro r hr
    rw [decide_eq_true_eq, hpadlen r hr]
    norm_num
  have hifcols : numCols disp < 16 := by rw [hcols]; exact hw
  have hedsP : ∀ d : ℝ, evaluateDamageState params "pier_drift" d =
      .ok (evalStateLoop scP d statesList.reverse) := by
    intro d
    simp [evaluateDamageState, hP]
  have hedsD : ∀ d : ℝ, evaluateDamageState params "deck_disp" d =
      .ok (evalStateLoop scD d statesList.reverse) := by
    intro d
    simp [evaluateDamageState, hD]
  have hcpP : ∀ d : ℝ, calcDamageProbabilities params "pier_drift" d =
      .ok (calcProbsCore scP d) := by
    intro d
    simp [calcDamageProbabilities, hP]
  have hcpD : ∀ d : ℝ, calcDamageProbabilities params "deck_disp" d =
      .ok (calcProbsCore scD d) := by
    intro d
    simp [calcDamageProbabilities, hD]
  have hlen4 : 0 < ((padTo16 disp).map (fun r => r.getD 4 0)).length := by
    simp [hlenpad]
    omega
  have hlensl : 0 < (sliceCols (padTo16 disp) 13 16).length := by
    simp [sliceCols, hlenpad]
    omega
  have hbody : evalTHBody params disp pier_height =
      .ok
        ⟨listAbsMax ((padTo16 disp).map (fun r => r.getD 4 0)) / pier_height,
          [colAbsMax (sliceCols (padTo16 disp) 13 16) 0,
            colAbsMax (sliceCols (padTo16 disp) 13 16) 1,
            colAbsMax (sliceCols (padTo16 disp) 13 16) 2],
          evalStateLoop scP
            (listAbsMax ((padTo16 disp).map (fun r => r.getD 4 0)) /
              pier_height) statesList.reverse,
          evalStateLoop scD (colAbsMax (sliceCols (padTo16 disp) 13 16) 1)
            statesList.reverse,
          (if (evalStateLoop scP
                (listAbsMax ((padTo16 disp).map (fun r => r.getD 4 0)) /
                  pier_height) statesList.reverse).value <
              (evalStateLoop scD
                (colAbsMax (sliceCols (padTo16 disp) 13 16) 1)
                statesList.reverse).value then
            evalStateLoop scD (colAbsMax (sliceCols (padTo16 disp) 13 16) 1)
              statesList.reverse
          else
            evalStateLoop scP
              (listAbsMax ((padTo16 disp).map (fun r => r.getD 4 0)) /
                pier_height) statesList.reverse),
          calcProbsCore scP
            (listAbsMax ((padTo16 disp).map (fun r => r.getD 4 0)) /
              pier_height),
          calcProbsCore scD (colAbsMax (sliceCols (padTo16 disp) 13 16) 1),
          none⟩ := by
    simp only [evalTHBody, if_pos hifcols, hgc, Bind.bind, Except.bind,
      if_pos hlen4, if_pos hlensl, hedsP, hedsD, hcpP, hcpD, List.getD,
      Pure.pure, Except.pure]
    simp [List.length_map, hlenpad, hpos]
  have hnotle : ¬ disp.length ≤ 1 := by omega
  have heth : evaluateTimeHistory params disp pier_height =
      (evaluateTimeHistory params disp pier_height) := rfl
  have heval : ∀ a, evalTHBody params disp pier_height = .ok a →
      evaluateTimeHistory params disp pier_height = a := by
    intro a ha
    rw [evaluateTimeHistory, if_neg hnotle, ha]
  have hres := heval _ hbody
  refine ⟨hpadlen, ⟨_, hbody⟩, ?_, ?_, ?_⟩
  · rw [hres]
  · intro h4
    rw [hres]
    have hzero : ∀ x ∈ (padTo16 disp).map (fun r => r.getD 4 0), x = 0 := by
      intro x hx
      obtain ⟨r, hr, rfl⟩ := List.mem_map.mp hx
      rw [hpadmap] at hr
      obtain ⟨q, hq, rfl⟩ := List.mem_map.mp hr
      exact getD_pad_zero q w 4 (hrect q hq) h4
    show listAbsMax ((padTo16 disp).map (fun r => r.getD 4 0)) / pier_height
      = 0
    rw [listAbsMax_zero _ hzero, zero_div]
  · intro h13
    rw [hres]
    have hz : ∀ j, j < 3 →
        colAbsMax (sliceCols (padTo16 disp) 13 16) j = 0 := by
      intro j hj
      apply colAbsMax_zero
      intro row hrow
      simp only [sliceCols] at hrow
      obtain ⟨x, hx, rfl⟩ := List.mem_map.mp hrow
      have h316 : (16:ℕ) - 13 = 3 := by norm_num
      rw [h316, slice_entry x j hj]
      rw [hpadmap] at hx
      obtain ⟨q, hq, rfl⟩ := List.mem_map.mp hx
      exact getD_pad_zero q w (13 + j) (hrect q hq) (by omega)
    show [colAbsMax (sliceCols (padTo16 disp) 13 16) 0,
        colAbsMax (sliceCols (padTo16 disp) 13 16) 1,
        colAbsMax (sliceCols (padTo16 disp) 13 16) 2] = [0, 0, 0]
    rw [hz 0 (by norm_num), hz 1 (by norm_num), hz 2 (by norm_num)]

/-! ### C4/C5: orchestrator phase isolation and phase auto-selection -/

lemma staticPhase_modal (cfg : Config) (sv : Solver) (st : RunnerResults) :
    (staticPhase cfg sv st).modal = st.modal := by
  unfold staticPhase
  split
  · rfl
  · split
    · rfl
    · unfold runStaticAnalysis
      split
      · rfl
      · split <;> rfl

lemma staticPhase_th (cfg : Config) (sv : Solver) (st : RunnerResults) :
    (staticPhase cfg sv st).time_history = st.time_history := by
  unfold staticPhase
  split
  · rfl
  · split
    · rfl
    · unfold runStaticAnalysis
      split
      · rfl
      · split <;> rfl

lemma modalPhase_static (cfg : Config) (sv : Solver) (st : RunnerResults) :
    (modalPhase cfg sv st).static = st.static := by
  unfold modalPhase
  split
  · rfl
  · unfold runModalAnalysis
    split <;> rfl

lemma modalPhase_th (cfg : Config) (sv : Solver) (st : RunnerResults) :
    (modalPhase cfg sv st).time_history = st.time_history := by
  unfold modalPhase
  split
  · rfl
  · unfold runModalAnalysis
    split <;> rfl

lemma thPhase_static (cfg : Config) (sv : Solver) (st : RunnerResults) :
    (thPhase cfg sv st).static = st.static := by
  unfold thPhase
  split
  · rfl
  · split
    · rfl
    · split
      · rfl
      · unfold runTimeHistoryAnalysis
        split
        · rfl
        · dsimp only
          split <;> rfl

lemma thPhase_modal (cfg : Config) (sv : Solver) (st : RunnerResults) :
    (thPhase cfg sv st).modal = st.modal := by
  unfold thPhase
  split
  · rfl
  · split
    · rfl
    · split
      · rfl
      · unfold runTimeHistoryAnalysis
        split
        · rfl
        · dsimp only
          split <;> rfl

lemma staticPhase_static_of_solve_error (cfg : Config) (sv : Solver)
    (st : RunnerResults) (a : AnalysisCfg) (e : String)
    (ha : cfg.analysis = some a)
    (he : sv.static_solve (a.static_load.getD 100.0) = .error e) :
    (staticPhase cfg sv st).static = st.static := by
  unfold staticPhase
  split
  · rfl
  · rw [ha]
    dsimp only
    unfold runStaticAnalysis
    rw [he]

lemma modalPhase_modal_isSome (cfg : Config) (sv : Solver)
    (st : RunnerResults) (hb : sv.build = .ok ()) :
    (modalPhase cfg sv st).modal.isSome := by
  unfold modalPhase
  rw [hb]
  dsimp only
  unfold runModalAnalysis
  split <;> rfl

lemma modalPhase_modal_of_eigen_error (cfg : Config) (sv : Solver)
    (st : RunnerResults) (e : String) (hb : sv.build = .ok ())
    (he : sv.eigen (cfg.num_modes.getD 3) = .error e) :
    (modalPhase cfg sv st).modal =
      some ⟨([0.5, 0.3, 0.1] : List ℝ).take (cfg.num_modes.getD 3),
        (([0.5, 0.3, 0.1] : List ℝ).take (cfg.num_modes.getD 3)).map
          (fun t => 1 / t), none, some e⟩ := by
  unfold modalPhase
  rw [hb]
  dsimp only
  unfold runModalAnalysis
  rw [he]

lemma thPhase_th_of_gm_error (cfg : Config) (sv : Solver)
    (st : RunnerResults) (a : AnalysisCfg) (gm : GroundMotionCfg) (e : String)
    (ha : cfg.analysis = some a) (hgm : a.ground_motion = some gm)
    (he : sv.gm_load gm.file = .error e) :
    (thPhase cfg sv st).time_history = st.time_history := by
  unfold thPhase
  split
  · rfl
  · rw [ha]
    dsimp only
    rw [hgm]
    dsimp only
    unfold runTimeHistoryAnalysis
    rw [he]

lemma thPhase_th_of_solve_error (cfg : Config) (sv : Solver)
    (st : RunnerResults) (a : AnalysisCfg) (gm : GroundMotionCfg)
    (acc : List ℝ) (e : String) (hb : sv.build = .ok ())
    (ha : cfg.analysis = some a) (hgm : a.ground_motion = some gm)
    (hacc : sv.gm_load gm.file = .ok acc)
    (he : sv.th_solve gm.file gm.dt (gm.dt / 2)
      (gm.duration.getD ((acc.length - 1 : ℕ) * gm.dt)) = .error e) :
    (thPhase cfg sv st).time_history =
      some ⟨zeros 1 16, zeros 1 13, [0], some e⟩ := by
  unfold thPhase
  rw [hb]
  dsimp only
  rw [ha]
  dsimp only
  rw [hgm]
  dsimp only
  unfold runTimeHistoryAnalysis
  rw [hacc]
  dsimp only
  rw [he]

/-- C4 (amended): `run_analysis` is total — it never propagates a phase or
damage-evaluation failure, a summary and a damage evaluation over the
surviving raw results are always produced, and later phases run regardless
of earlier failures.  A phase is absent from the aggregated raw results only
when the failure escapes the runner (static solve failure, or a
ground-motion record that fails to load); a modal solver failure and a
time-history solver failure are caught INSIDE the runner and recorded under
the phase key with fallback values and an error marker. -/
theorem thm_C4_failure_isolation (ev : Evaluator) (sv : Solver)
    (types : List String) :
    ((run_analysisCore ev sv types).summary = ⟨ev.config⟩) ∧
      ((run_analysisCore ev sv types).damage =
        evaluate_damage_from_results ev.fragility_params
          (toEvalInput (run_analysisCore ev sv types).analysis)
          ev.config.height) ∧
      ("static" ∈ types → ∀ a, ev.config.analysis = some a → ∀ e,
        sv.static_solve (a.static_load.getD 100.0) = .error e →
        (run_analysisCore ev sv types).analysis.static = none) ∧
      ("modal" ∈ types → sv.build = .ok () →
        ((run_analysisCore ev sv types).analysis.modal).isSome) ∧
      ("modal" ∈ types → sv.build = .ok () → ∀ e,
        sv.eigen (ev.config.num_modes.getD 3) = .error e →
        ∃ entry, (run_analysisCore ev sv types).analysis.modal = some entry ∧
          entry.error = some e) ∧
      ("time_history" ∈ types → ∀ a gm, ev.config.analysis = some a →
        a.ground_motion = some gm → ∀ e, sv.gm_load gm.file = .error e →
        (run_analysisCore ev sv types).analysis.time_history = none) ∧
      ("time_history" ∈ types → sv.build = .ok () → ∀ a gm,
        ev.config.analysis = some a → a.ground_motion = some gm →
        ∀ acc e, sv.gm_load gm.file = .ok acc →
        sv.th_solve gm.file gm.dt (gm.dt / 2)
          (gm.duration.getD ((acc.length - 1 : ℕ) * gm.dt)) = .error e →
        (run_analysisCore ev sv types).analysis.time_history =
          some ⟨zeros 1 16, zeros 1 13, [0], some e⟩) := by
  have hana : (run_analysisCore ev sv types).analysis =
      (if "time_history" ∈ types then
        thPhase ev.config sv
          (if "modal" ∈ types then
            modalPhase ev.config sv
              (if "static" ∈ types then
                staticPhase ev.config sv ⟨none, none, none⟩
              else ⟨none, none, none⟩)
          else
            (if "static" ∈ types then
              staticPhase ev.config sv ⟨none, none, none⟩
            else ⟨none, none, none⟩))
      else
        (if "modal" ∈ types then
          modalPhase ev.config sv
            (if "static" ∈ types then
              staticPhase ev.config sv ⟨none, none, none⟩
            else ⟨none, none, none⟩)
        else
          (if "static" ∈ types then
            staticPhase ev.config sv ⟨none, none, none⟩
          else ⟨none, none, none⟩))) := rfl
  refine ⟨rfl, rfl, ?_, ?_, ?_, ?_, ?_⟩
  · intro hst a ha e he
    rw [hana]
    have e1 : (staticPhase ev.config sv
        (⟨none, none, none⟩ : RunnerResults)).static = none := by
      rw [staticPhase_static_of_solve_error ev.config sv _ a e ha he]
    rw [if_pos hst]
    by_cases hm : "modal" ∈ types <;> by_cases hth : "time_history" ∈ types <;>
      simp [hm, hth, thPhase_static, modalPhase_static, e1]
  · intro hm hb
    rw [hana, if_pos hm]
    by_cases hth : "time_history" ∈ types <;>
      simp [hth, thPhase_modal, modalPhase_modal_isSome _ _ _ hb]
  · intro hm hb e he
    rw [hana, if_pos hm]
    refine ⟨⟨([0.5, 0.3, 0.1] : List ℝ).take (ev.config.num_modes.getD 3),
      (([0.5, 0.3, 0.1] : List ℝ).take (ev.config.num_modes.getD 3)).map
        (fun t => 1 / t), none, some e⟩, ?_, rfl⟩
    by_cases hth : "time_history" ∈ types <;>
      simp [hth, thPhase_modal, modalPhase_modal_of_eigen_error _ _ _ _ hb he]
  · intro hth a gm ha hgm e he
    rw [hana, if_pos hth]
    have e3 := thPhase_th_of_gm_error ev.config sv
      (if "modal" ∈ types then
        modalPhase ev.config sv
          (if "static" ∈ types then
            staticPhase ev.config sv ⟨none, none, none⟩
          else ⟨none, none, none⟩)
      else
        (if "static" ∈ types then
          staticPhase ev.config sv ⟨none, none, none⟩
        else ⟨none, none, none⟩)) a gm e ha hgm he
    rw [e3]
    by_cases hm : "modal" ∈ types <;> by_cases hst : "static" ∈ types <;>
      simp [hm, hst, modalPhase_th, staticPhase_th]
  · intro hth hb a gm ha hgm acc e hacc he
    rw [hana, if_pos hth]
    exact thPhase_th_of_solve_error ev.config sv _ a gm acc e hb ha hgm hacc
      he

/-- The C4/C5 counterexample configuration: an `analysis` section with
neither a static load nor a ground motion, so auto-selection picks exactly
the modal phase. -/
noncomputable def cfgC4 : Config := ⟨10, 5, some ⟨none, none⟩, none, none⟩

/-- Evaluator over `cfgC4` with the default fragility curves. -/
noncomputable def evC4 : Evaluator := ⟨cfgC4, default_fragility⟩

/-- A solver whose every operation fails (model building succeeds). -/
noncomputable def svC4 : Solver :=
  { build := .ok (),
    static_solve := fun _ => .error "static fail",
    eigen := fun _ => .error "eigen fail",
    gm_load := fun _ => .error "gm fail",
    th_solve := fun _ _ _ _ => .error "th fail" }

/-- C4 counterexample: the modal solver fails, yet the modal phase is NOT
absent from the aggregated raw results — the runner records a fallback entry
under the "modal" key, contradicting the claim that a phase whose solver
operation fails has no entry under its phase key. -/
theorem thm_C4_counterexample :
    svC4.eigen 3 = .error "eigen fail" ∧
      (run_analysis evC4 svC4 none).analysis.modal ≠ none := by
  refine ⟨rfl, ?_⟩
  have h2 : run_analysis evC4 svC4 none =
      run_analysisCore evC4 svC4 ["modal"] := by
    rw [run_analysis]
    have h1 : (none : Option (List String)).getD (autoSelect evC4.config) =
        ["modal"] := by
      simp [autoSelect, evC4, cfgC4]
    rw [h1]
  rw [h2]
  have hmem : "modal" ∈ (["modal"] : List String) := by decide
  have hs : "static" ∉ (["modal"] : List String) := by decide
  have hth : "time_history" ∉ (["modal"] : List String) := by decide
  simp [run_analysisCore, hmem, hs, hth, modalPhase, runModalAnalysis, svC4,
    evC4, cfgC4]

/-- Witness for the amended C4 theorem: with solver `svC4`, running only the
modal phase yields a modal entry carrying the error marker. -/
theorem thm_C4_witness :
    ∃ entry, (run_analysisCore evC4 svC4 ["modal"]).analysis.modal =
      some entry ∧ entry.error = some "eigen fail" :=
  (thm_C4_failure_isolation evC4 svC4 ["modal"]).2.2.2.2.1 (by simp) rfl
    "eigen fail" rfl

/-- C5 (amended): without an explicit phase list, `run_analysis` uses
auto-selection; auto-selection yields the EMPTY list when the configuration
has no `analysis` section, and otherwise includes Modal always, Static iff a
static load is declared, and TimeHistory iff a ground-motion record is
declared. -/
theorem thm_C5_auto_selection (ev : Evaluator) (sv : Solver) (cfg : Config) :
    (run_analysis ev sv none =
        run_analysisCore ev sv (autoSelect ev.config)) ∧
      (cfg.analysis = none → autoSelect cfg = []) ∧
      (∀ a, cfg.analysis = some a →
        ("modal" ∈ autoSelect cfg ∧
          ("static" ∈ autoSelect cfg ↔ a.static_load.isSome) ∧
          ("time_history" ∈ autoSelect cfg ↔ a.ground_motion.isSome))) := by
  refine ⟨rfl, ?_, ?_⟩
  · intro h
    simp [autoSelect, h]
  · intro a ha
    cases hs : a.static_load <;> cases hg : a.ground_motion <;>
      simp [autoSelect, ha, hs, hg]

/-- A configuration with no `analysis` section at all. -/
noncomputable def cfgC4noAnalysis : Config := ⟨10, 5, none, none, none⟩

/-- A configuration whose `analysis` section declares only a static load. -/
noncomputable def cfgC5w : Config :=
  ⟨10, 5, some ⟨some 100, none⟩, none, none⟩

/-- C5 counterexample: a configuration without an `analysis` section — the
claim says Modal is always auto-selected, but auto-selection yields no phase
at all. -/
theorem thm_C5_counterexample : "modal" ∉ autoSelect cfgC4noAnalysis := by
  simp [autoSelect, cfgC4noAnalysis]

/-- Witness for the amended C5 theorem at a configuration declaring only a
static load. -/
theorem thm_C5_witness :
    cfgC5w.analysis = some ⟨some 100, none⟩ ∧
      "modal" ∈ autoSelect cfgC5w ∧ "static" ∈ autoSelect cfgC5w ∧
      "time_history" ∉ autoSelect cfgC5w := by
  have h := (thm_C5_auto_selection ⟨cfgC5w, default_fragility⟩ svC4 cfgC5w).2.2
    ⟨some 100, none⟩ rfl
  exact ⟨rfl, h.1, h.2.1.mpr rfl, fun hmem => by simpa using h.2.2.mp hmem⟩

/-- A 10-wide row of zeros (witness data for the padding degradation). -/
noncomputable def row10 : List ℝ := [0, 0, 0, 0, 0, 0, 0, 0, 0, 0]

/-- A 2 × 10 displacement matrix (witness data). -/
noncomputable def dispW10 : List (List ℝ) := [row10, row10]

/-- Witness for C7 on a 2 × 10 matrix with the default fragility model. -/
theorem thm_C7_witness :
    IsRect dispW10 10 ∧ (10:ℕ) < 16 ∧ 1 < dispW10.length ∧
      (evaluateTimeHistory default_fragility dispW10 1).error = none ∧
      (evaluateTimeHistory default_fragility dispW10 1).max_deck_displacement
        = [0, 0, 0] := by
  have hrect : IsRect dispW10 10 := by
    intro r hr
    simp only [dispW10, List.mem_cons, List.not_mem_nil, or_false] at hr
    rcases hr with h | h <;> (rw [h]; rfl)
  have h1 := thm_C7_zero_padding default_fragility dispW10 10 1 hrect
    (by norm_num) (by norm_num [dispW10]) (by simp [default_fragility])
    (by simp [default_fragility])
  exact ⟨hrect, by norm_num, by norm_num [dispW10], h1.2.2.1,
    h1.2.2.2.2 (by norm_num)⟩

/-! ### C9: fragility-configuration conversion at construction time -/

/-- The Python name of each DamageState member. -/
def damageStateName : DamageState → String
  | .NO_DAMAGE => "NO_DAMAGE"
  | .SLIGHT => "SLIGHT"
  | .MODERATE => "MODERATE"
  | .EXTENSIVE => "EXTENSIVE"
  | .COMPLETE => "COMPLETE"

lemma parse_eq_some_iff (s : String) (st : DamageState) :
    parseDamageState s = some st ↔ s = damageStateName st := by
  unfold parseDamageState
  cases st <;> split_ifs with h1 h2 h3 h4 h5 <;>
    simp_all [damageStateName]

lemma foldlM_error_of_mem {α β : Type} (f : β → α → Except String β) (x : α)
    (hx : ∀ b, ∃ e, f b x = .error e) :
    ∀ (l : List α) (b : β), x ∈ l → ∃ e, l.foldlM f b = .error e := by
  intro l
  induction l with
  | nil =>
    intro b h
    simp at h
  | cons y l ih =>
    intro b hmem
    rw [List.foldlM_cons]
    rcases List.mem_cons.mp hmem with rfl | hmem2
    · obtain ⟨e, he⟩ := hx b
      exact ⟨e, by rw [he]; rfl⟩
    · rcases hfy : f b y with e2 | b2
      · exact ⟨e2, by simp [Bind.bind, Except.bind]⟩
      · obtain ⟨e2, he⟩ := ih b2 hmem2
        exact ⟨e2, by simpa [Bind.bind, Except.bind] using he⟩

lemma foldlM_ok_of_all {α β : Type} (f : β → α → Except String β) :
    ∀ (l : List α) (b : β), (∀ x ∈ l, ∀ c, ∃ c2, f c x = .ok c2) →
      ∃ b2, l.foldlM f b = .ok b2 := by
  intro l
  induction l with
  | nil =>
    intro b _
    exact ⟨b, rfl⟩
  | cons y l ih =>
    intro b hall
    rw [List.foldlM_cons]
    obtain ⟨b2, hb2⟩ := hall y (List.mem_cons_self y l) b
    obtain ⟨b3, hb3⟩ := ih b2
      (fun x hx c => hall x (List.mem_cons_of_mem y hx) c)
    exact ⟨b3, by rw [hb2]; exact hb3⟩

lemma convertLevels_aux_preserve (st : DamageState) :
    ∀ (l : List (String × Curve)) (acc sc : StateCurves),
      (∀ np ∈ l, parseDamageState (pyUpper np.1) ≠ some st) →
      List.foldlM convStep acc l = .ok sc → sc st = acc st := by
  intro l
  induction l with
  | nil =>
    intro acc sc _ hfold
    simp only [List.foldlM_nil] at hfold
    rw [← Except.ok.inj hfold]
  | cons y l ih =>
    intro acc sc h hfold
    rw [List.foldlM_cons] at hfold
    rcases hp : parseDamageState (pyUpper y.1) with _ | sty
    · rw [convStep, hp] at hfold
      exact absurd hfold (by simp [Bind.bind, Except.bind])
    · rw [convStep, hp] at hfold
      have hne : sty ≠ st := by
        intro hcontra
        exact h y (List.mem_cons_self y l) (by rw [hp, hcontra])
      have hrec := ih (dUpdate acc sty (some y.2)) sc
        (fun np hnp => h np (List.mem_cons_of_mem y hnp)) hfold
      rw [hrec, dUpdate, if_neg (fun hc => hne hc.symm)]

lemma convertLevels_aux_installed (st : DamageState) (p : Curve)
    (nm : String) :
    ∀ (l : List (String × Curve)) (acc sc : StateCurves),
      (nm, p) ∈ l → parseDamageState (pyUpper nm) = some st →
      (l.map (fun np => pyUpper np.1)).Nodup →
      List.foldlM convStep acc l = .ok sc → sc st = some p := by
  intro l
  induction l with
  | nil =>
    intro acc sc h
    simp at h
  | cons y l ih =>
    intro acc sc hmem hparse hnd hfold
    rw [List.foldlM_cons] at hfold
    have hnd2 := (List.nodup_cons.mp hnd).2
    have hhead := (List.nodup_cons.mp hnd).1
    rcases List.mem_cons.mp hmem with heq | hmem2
    · rw [← heq] at hfold
      rw [convStep, hparse] at hfold
      have hlater : ∀ np ∈ l, parseDamageState (pyUpper np.1) ≠ some st := by
        intro np hnp hcontra
        have h1 : pyUpper np.1 = damageStateName st :=
          (parse_eq_some_iff _ _).mp hcontra
        have h2 : pyUpper nm = damageStateName st :=
          (parse_eq_some_iff _ _).mp hparse
        apply hhead
        have : pyUpper np.1 ∈ l.map (fun q => pyUpper q.1) :=
          List.mem_map.mpr ⟨np, hnp, rfl⟩
        rw [← heq]
        simpa [h2, ← h1] using this
      have := convertLevels_aux_preserve st l (dUpdate acc st (some p)) sc
        hlater hfold
      rw [this, dUpdate, if_pos rfl]
    · rcases hstep : convStep acc y with e | acc2
      · rw [hstep] at hfold
        exact absurd hfold (by simp [Bind.bind, Except.bind])
      · rw [hstep] at hfold
        exact ih acc2 sc hmem2 hparse hnd2 hfold

lemma convComponents_preserve (ct : String) :
    ∀ (l : FragilityCfg) (acc m : FragilityParams),
      (∀ ctp ∈ l, ctp.1 ≠ ct) →
      List.foldlM convComponentStep acc l = .ok m → m ct = acc ct := by
  intro l
  induction l with
  | nil =>
    intro acc m _ hfold
    simp only [List.foldlM_nil] at hfold
    rw [← Except.ok.inj hfold]
  | cons y l ih =>
    intro acc m h hfold
    rw [List.foldlM_cons] at hfold
    rcases hcl : convertLevels y.2 with e | sc
    · rw [convComponentStep, hcl] at hfold
      exact absurd hfold (by simp [Bind.bind, Except.bind])
    · rw [convComponentStep, hcl] at hfold
      simp only [Bind.bind, Except.bind, Pure.pure, Except.pure] at hfold
      have hrec := ih _ m (fun ctp hctp => h ctp (List.mem_cons_of_mem y hctp))
        hfold
      rw [hrec, if_neg (fun hc => h y (List.mem_cons_self y l) hc.symm)]

lemma convComponents_installed (ct : String)
    (levels : List (String × Curve)) :
    ∀ (l : FragilityCfg) (acc m : FragilityParams),
      (ct, levels) ∈ l → (l.map Prod.fst).Nodup →
      List.foldlM convComponentStep acc l = .ok m →
      ∃ sc, m ct = some sc ∧ convertLevels levels = .ok sc := by
  intro l
  induction l with
  | nil =>
    intro acc m h
    simp at h
  | cons y l ih =>
    intro acc m hmem hnd hfold
    rw [List.foldlM_cons] at hfold
    have hnd2 := (List.nodup_cons.mp hnd).2
    have hhead := (List.nodup_cons.mp hnd).1
    rcases List.mem_cons.mp hmem with heq | hmem2
    · rw [← heq] at hfold
      rcases hcl : convertLevels levels with e | sc
      · rw [convComponentStep, hcl] at hfold
        exact absurd hfold (by simp [Bind.bind, Except.bind])
      · rw [convComponentStep, hcl] at hfold
        simp only [Bind.bind, Except.bind, Pure.pure, Except.pure] at hfold
        have hlater : ∀ ctp ∈ l, ctp.1 ≠ ct := by
          intro ctp hctp hcontra
          apply hhead
          have : ctp.1 ∈ l.map Prod.fst := List.mem_map.mpr ⟨ctp, hctp, rfl⟩
          rw [← heq]
          simpa [hcontra] using this
        have := convComponents_preserve ct l _ m hlater hfold
        rw [this, if_pos rfl]
        exact ⟨sc, rfl, rfl⟩
    · rcases hstep : convComponentStep acc y with e | acc2
      · rw [hstep] at hfold
        exact absurd hfold (by simp [Bind.bind, Except.bind])
      · rw [hstep] at hfold
        exact ih acc2 m hmem2 hnd2 hfold

/-- C9: an unknown damage-state name in the fragility configuration makes
evaluator construction fail with the configuration error raised to the
caller (so no phase can run, since `run_analysis` needs the constructed
evaluator); with only known names construction succeeds and the converted
curves are installed in the damage evaluator. -/
theorem thm_C9_fragility_conversion (cfg : Config) :
    (∀ fc ct levels nm p, cfg.fragility = some fc → (ct, levels) ∈ fc →
        (nm, p) ∈ levels → parseDamageState (pyUpper nm) = none →
        ∃ e, mkBridgeEvaluator cfg = .error e) ∧
      (∀ fc, cfg.fragility = some fc →
        (∀ ctp ∈ fc, ∀ np ∈ ctp.2, (parseDamageState (pyUpper np.1)).isSome) →
        ∃ ev, mkBridgeEvaluator cfg = .ok ev ∧ ev.config = cfg ∧
          ((fc.map Prod.fst).Nodup →
            ∀ ct levels, (ct, levels) ∈ fc →
            (levels.map (fun np => pyUpper np.1)).Nodup →
            ∃ sc, ev.fragility_params ct = some sc ∧
              ∀ nm p st, (nm, p) ∈ levels →
                parseDamageState (pyUpper nm) = some st → sc st = some p)) := by
  constructor
  · intro fc ct levels nm p hfc hmemc hmeml hbad
    have hstepbad : ∀ acc : StateCurves, ∃ e,
        convStep acc (nm, p) = .error e := by
      intro acc
      rw [convStep]
      simp only [hbad]
      exact ⟨_, rfl⟩
    have hlev : ∃ e, convertLevels levels = .error e :=
      foldlM_error_of_mem convStep (nm, p) hstepbad levels (fun _ => none)
        hmeml
    obtain ⟨e1, he1⟩ := hlev
    have hcompbad : ∀ acc : FragilityParams, ∃ e,
        convComponentStep acc (ct, levels) = .error e := by
      intro acc
      rw [convComponentStep]
      rw [he1]
      exact ⟨e1, rfl⟩
    obtain ⟨e2, he2⟩ := foldlM_error_of_mem convComponentStep (ct, levels)
      hcompbad fc (fun _ => none) hmemc
    refine ⟨e2, ?_⟩
    simp only [mkBridgeEvaluator, convertFragilityConfig, hfc, he2,
      Bind.bind, Except.bind]
  · intro fc hfc hall
    have hstepok : ∀ x ∈ fc, ∀ acc : FragilityParams, ∃ acc2,
        convComponentStep acc x = .ok acc2 := by
      intro x hx acc
      have hlevok : ∀ np ∈ x.2, ∀ sacc : StateCurves, ∃ sacc2,
          convStep sacc np = .ok sacc2 := by
        intro np hnp sacc
        obtain ⟨st, hst⟩ := Option.isSome_iff_exists.mp (hall x hx np hnp)
        rw [convStep, hst]
        exact ⟨_, rfl⟩
      obtain ⟨sc, hsc⟩ := foldlM_ok_of_all convStep x.2 (fun _ => none) hlevok
      rw [convComponentStep]
      rw [show convertLevels x.2 = .ok sc from hsc]
      exact ⟨_, rfl⟩
    obtain ⟨m, hm⟩ := foldlM_ok_of_all convComponentStep fc (fun _ => none)
      hstepok
    refine ⟨⟨cfg, m⟩, ?_, rfl, ?_⟩
    · simp only [mkBridgeEvaluator, convertFragilityConfig, hfc, hm,
        Bind.bind, Except.bind, Pure.pure, Except.pure, Option.getD]
    · intro hndc ct levels hmemc hndl
      obtain ⟨sc, hsc, hcl⟩ := convComponents_installed ct levels fc
        (fun _ => none) m hmemc hndc hm
      refine ⟨sc, hsc, ?_⟩
      intro nm p st hmeml hparse
      exact convertLevels_aux_installed st p nm levels (fun _ => none) sc
        hmeml hparse hndl hcl

/-- A config whose fragility section uses a known (lower-case) state name. -/
noncomputable def cfgC9good : Config :=
  ⟨10, 5, none, none, some [("pier_drift", [("slight", ⟨1, 2⟩)])]⟩

/-- A config whose fragility section uses an unknown state name. -/
noncomputable def cfgC9bad : Config :=
  ⟨10, 5, none, none, some [("pier_drift", [("bogus", ⟨1, 2⟩)])]⟩

/-- Witness for C9: a one-component configuration with a lower-case known
name installs the curve, and a bogus name fails construction. -/
theorem thm_C9_witness :
    (∃ ev, mkBridgeEvaluator cfgC9good = .ok ev ∧
        ∃ sc, ev.fragility_params "pier_drift" = some sc ∧
          sc .SLIGHT = some ⟨1, 2⟩) ∧
      ∃ e, mkBridgeEvaluator cfgC9bad = .error e := by
  constructor
  · obtain ⟨ev, hok, _, hinst⟩ :=
      (thm_C9_fragility_conversion cfgC9good).2
        [("pier_drift", [("slight", ⟨1, 2⟩)])] rfl
        (by
          intro ctp hctp np hnp
          simp only [List.mem_cons, List.not_mem_nil, or_false] at hctp hnp
          rw [hctp] at hnp
          simp only [List.mem_cons, List.not_mem_nil, or_false] at hnp
          rw [hnp]
          rfl)
    obtain ⟨sc, hsc, hcurve⟩ := hinst (by simp)
      "pier_drift" [("slight", ⟨1, 2⟩)] (by simp) (by simp)
    exact ⟨ev, hok, sc, hsc,
      hcurve "slight" ⟨1, 2⟩ .SLIGHT (by simp) (by rfl)⟩
  · exact (thm_C9_fragility_conversion cfgC9bad).1
      [("pier_drift", [("bogus", ⟨1, 2⟩)])] "pier_drift"
      [("bogus", ⟨1, 2⟩)] "bogus" ⟨1, 2⟩ rfl (by simp) (by simp) (by rfl)

end BridgeEval
